import Mathlib

/-!
SignalFilter: a shallow embedding of `SignalFilter.cpp`

The engine of the Arduino signal filtering library is one class with a
three-slot sample window, two scalar accumulators and a strategy tag.  The
member functions are embedded as pure functions on an explicit state record.

Integers are mathematical integers (`Int`); the explicit `(short)` casts of
the source are embedded as the 16-bit two's complement wrap `toShort`, and
`>>` is the arithmetic (floor) shift `Int.shiftRight` by a natural
number of places.  This exact embedding (`run`) is the code
wherever no operation overflows.  The second embedding `runW` takes the
widths of `int` and `long` as parameters and reduces every arithmetic result
to its width (`wrapInt`, `wrapLong`); the two agree in the ranges given by
the lemmas `runW_eq_run_*`.
The debug printing of the source (`Serial.print`) has no effect on the state
or on the returned value and is left out.
-/

set_option autoImplicit false

/-- Modelled from the spec: the member declarations of the class live in
`SignalFilter.h`, which is absent.  The window `_v[0..2]`, `_helper`,
`_counter`, `_order`, `_average` and `_median` are integers of the sample
type, `_filter` is the one-character strategy tag. -/
structure SignalFilter where
  v0 : Int
  v1 : Int
  v2 : Int
  helper : Int
  counter : Int
  filter : Char
  order : Int
  average : Int
  median : Int
deriving DecidableEq

namespace SignalFilter

/-- The cast `(short)x`: reduction to the 16-bit signed range. -/
def toShort (x : Int) : Int := (x + 32768) % 65536 - 32768

/-- Constructor `SignalFilter::SignalFilter()` (lines 26-37): all state zero. -/
def new : SignalFilter :=
  { v0 := 0, v1 := 0, v2 := 0, helper := 0, counter := 0,
    filter := Char.ofNat 0, order := 0, average := 0, median := 0 }

/-- Member `setFilter(char filter)` (lines 47-50). -/
def setFilter (s : SignalFilter) (f : Char) : SignalFilter :=
  { s with filter := f }

/-- Member `setOrder(int order)` (lines 53-56). -/
def setOrder (s : SignalFilter) (o : Int) : SignalFilter :=
  { s with order := o }

/-- Member `begin()` (lines 40-44): `setFilter('c'); setOrder(1);`. -/
def begin (s : SignalFilter) : SignalFilter :=
  setOrder (setFilter s 'c') 1

/-- The Chebyshev order 1 accumulator `tmp` (lines 84-86); `v0` is the
already shifted slot `_v[0]`. -/
def chebyshev1Tmp (data v0 : Int) : Int :=
  ((((data * 3269048) >>> (2 : Nat))
    + ((v0 * 3701023) >>> (3 : Nat))
    ) + 1048576) >>> (21 : Nat)

/-- The Chebyshev order 2 accumulator `tmp` (lines 94-97). -/
def chebyshev2Tmp (data v0 v1 : Int) : Int :=
  ((((data * 662828) >>> (4 : Nat))
    + ((v0 * (-540791)) >>> (1 : Nat))
    + (v1 * 628977)
    ) + 262144) >>> (19 : Nat)

/-- The Bessel order 1 accumulator `tmp` (lines 112-114). -/
def bessel1Tmp (data v0 : Int) : Int :=
  ((((data * 2057199) >>> (3 : Nat))
    + ((v0 * 1068552) >>> (1 : Nat))
    ) + 524288) >>> (20 : Nat)

/-- The Bessel order 2 accumulator `tmp` (lines 122-125). -/
def bessel2Tmp (data v0 v1 : Int) : Int :=
  ((((data * 759505) >>> (4 : Nat))
    + ((v0 * (-1011418)) >>> (3 : Nat))
    + ((v1 * 921678) >>> (1 : Nat))
    ) + 262144) >>> (19 : Nat)

/-- The decision tree of the `m` strategy (lines 146-181) on the shifted
window `a = _v[0]`, `b = _v[1]`, `c = _v[2]`; the value stored in `_median`. -/
def medianTree (a b c : Int) : Int :=
  if c < b then
    if c < a then
      if b < a then b else a
    else c
  else
    if c < a then c
    else
      if b < a then a else b

/-- The three range tests of the `n` strategy (lines 196-203); `none` when no
test succeeds and control leaves the `else if` chain. -/
def medianRange (a b c : Int) : Option Int :=
  if ((c < b) ∧ (c > a)) ∨ ((c < a) ∧ (c > b)) then some c
  else if (b < c ∧ b > a) ∨ (b < a ∧ b > c) then some b
  else if (a < c ∧ a > b) ∨ (a < b ∧ a > c) then some a
  else none

/-- The selection `middle` of the `0` strategy (lines 218-229). -/
def medianMiddle (a b c : Int) : Int :=
  if (a ≤ b) ∧ (a ≤ c) then
    (if b ≤ c then b else c)
  else if (b ≤ a) ∧ (b ≤ c) then
    (if a ≤ c then a else c)
  else
    (if a ≤ b then a else b)

/-- The update of `_helper` by the `g` strategy (lines 237-260). -/
def growFast (helper data : Int) : Int :=
  if data > helper then
    let h := if data > helper + 512 then helper + 512 else helper
    let h := if data > h + 128 then h + 128 else h
    let h := if data > h + 32 then h + 32 else h
    let h := if data > h + 8 then h + 8 else h
    h + 1
  else if data < helper then
    let h := if data < helper - 512 then helper - 512 else helper
    let h := if data < h - 128 then h - 128 else h
    let h := if data < h - 32 then h - 32 else h
    let h := if data < h - 8 then h - 8 else h
    h - 1
  else helper

/-- The update of `(_helper, _counter)` by the `h` strategy (lines 266-288). -/
def growSmooth (helper counter data : Int) : Int × Int :=
  let hc : Int × Int :=
    if data > helper then
      let hc : Int × Int :=
        if data > helper + 8 then (helper + 8 * (counter + 1), counter + 1)
        else (helper, counter)
      (hc.1 + 1, hc.2)
    else if data < helper then
      let hc : Int × Int :=
        if data < helper - 8 then (helper - 8 * (counter + 1), counter + 1)
        else (helper, counter)
      (hc.1 - 1, hc.2)
    else (helper, counter)
  if hc.2 > 10 then (hc.1, 0) else hc

/-- Member `run(int data)` (lines 73-295): the returned value and the state
after the call. -/
def run (s : SignalFilter) (data : Int) : Int × SignalFilter :=
  if s.filter = 'c' then
    if s.order = 1 then
      let v0 := s.v1
      let v1 := toShort (chebyshev1Tmp data v0)
      (toShort (v0 + v1), { s with v0 := v0, v1 := v1 })
    else if s.order = 2 then
      let v0 := s.v1
      let v1 := s.v2
      let v2 := toShort (chebyshev2Tmp data v0 v1)
      (toShort ((v0 + v2) + 2 * v1), { s with v0 := v0, v1 := v1, v2 := v2 })
    else (0, s)
  else if s.filter = 'b' then
    if s.order = 1 then
      let v0 := s.v1
      let v1 := toShort (bessel1Tmp data v0)
      (toShort (v0 + v1), { s with v0 := v0, v1 := v1 })
    else if s.order = 2 then
      let v0 := s.v1
      let v1 := s.v2
      let v2 := toShort (bessel2Tmp data v0 v1)
      (toShort ((v0 + v2) + 2 * v1), { s with v0 := v0, v1 := v1, v2 := v2 })
    else (0, s)
  else if s.filter = 'm' then
    let m := medianTree s.v1 s.v2 data
    (m, { s with v0 := s.v1, v1 := s.v2, v2 := data, median := m })
  else if s.filter = 'n' then
    let s1 := { s with v0 := s.v1, v1 := s.v2, v2 := data }
    match medianRange s.v1 s.v2 data with
    | some r => (r, s1)
    | none => (0, s1)
  else if s.filter = '0' then
    (medianMiddle s.v1 s.v2 data, { s with v0 := s.v1, v1 := s.v2, v2 := data })
  else if s.filter = 'g' then
    let h := growFast s.helper data
    (h, { s with helper := h })
  else if s.filter = 'h' then
    let hc := growSmooth s.helper s.counter data
    (hc.1, { s with helper := hc.1, counter := hc.2 })
  else (0, s)


/-- Successive calls `run(x1); ...; run(xn)` on one engine, as the host loop
issues them: the returned values in call order and the state after the last
call. -/
def runSeq (s : SignalFilter) : List Int → List Int × SignalFilter
  | [] => ([], s)
  | x :: xs => ((run s x).1 :: (runSeq (run s x).2 xs).1, (runSeq (run s x).2 xs).2)

/-- The statistical median of three values in the words of the specification:
the middle element of the three when they are put in order. -/
def statMedian (a b c : Int) : Int :=
  ((List.insertionSort (fun x y : Int => x ≤ y) [a, b, c]).getD 1 0)

/-- States reachable from a freshly constructed engine by calls of the public
members `setFilter`, `setOrder`, `begin` and `run`. -/
inductive Reachable : SignalFilter → Prop
  | fresh : Reachable new
  | afterSetFilter (s : SignalFilter) (f : Char) : Reachable s → Reachable (setFilter s f)
  | afterSetOrder (s : SignalFilter) (o : Int) : Reachable s → Reachable (setOrder s o)
  | afterBegin (s : SignalFilter) : Reachable s → Reachable (begin s)
  | afterRun (s : SignalFilter) (x : Int) : Reachable s → Reachable (run s x).2

/-- Reduction to the signed range of `w` bits (two's complement wrap): the
value an arithmetic result takes in a `long` of `w` bits. -/
def wrapLong (w : Nat) (x : Int) : Int := (x + 2 ^ (w - 1)) % 2 ^ w - 2 ^ (w - 1)

/-- The products and sums computed on the way to `tmp` in Chebyshev order 1
(lines 84-86), in evaluation order. -/
def chebyshev1Steps (data v0 : Int) : List Int :=
  [ data * 3269048,
    (data * 3269048) >>> (2 : Nat),
    v0 * 3701023,
    (v0 * 3701023) >>> (3 : Nat),
    ((data * 3269048) >>> (2 : Nat)) + ((v0 * 3701023) >>> (3 : Nat)),
    (((data * 3269048) >>> (2 : Nat)) + ((v0 * 3701023) >>> (3 : Nat))) + 1048576,
    chebyshev1Tmp data v0 ]

/-- The products and sums computed on the way to `tmp` in Chebyshev order 2
(lines 94-97), in evaluation order. -/
def chebyshev2Steps (data v0 v1 : Int) : List Int :=
  [ data * 662828,
    (data * 662828) >>> (4 : Nat),
    v0 * (-540791),
    (v0 * (-540791)) >>> (1 : Nat),
    ((data * 662828) >>> (4 : Nat)) + ((v0 * (-540791)) >>> (1 : Nat)),
    v1 * 628977,
    ((data * 662828) >>> (4 : Nat)) + ((v0 * (-540791)) >>> (1 : Nat)) + (v1 * 628977),
    (((data * 662828) >>> (4 : Nat)) + ((v0 * (-540791)) >>> (1 : Nat)) + (v1 * 628977))
      + 262144,
    chebyshev2Tmp data v0 v1 ]

/-- The products and sums computed on the way to `tmp` in Bessel order 1
(lines 112-114), in evaluation order. -/
def bessel1Steps (data v0 : Int) : List Int :=
  [ data * 2057199,
    (data * 2057199) >>> (3 : Nat),
    v0 * 1068552,
    (v0 * 1068552) >>> (1 : Nat),
    ((data * 2057199) >>> (3 : Nat)) + ((v0 * 1068552) >>> (1 : Nat)),
    (((data * 2057199) >>> (3 : Nat)) + ((v0 * 1068552) >>> (1 : Nat))) + 524288,
    bessel1Tmp data v0 ]

/-- The products and sums computed on the way to `tmp` in Bessel order 2
(lines 122-125), in evaluation order. -/
def bessel2Steps (data v0 v1 : Int) : List Int :=
  [ data * 759505,
    (data * 759505) >>> (4 : Nat),
    v0 * (-1011418),
    (v0 * (-1011418)) >>> (3 : Nat),
    ((data * 759505) >>> (4 : Nat)) + ((v0 * (-1011418)) >>> (3 : Nat)),
    v1 * 921678,
    (v1 * 921678) >>> (1 : Nat),
    ((data * 759505) >>> (4 : Nat)) + ((v0 * (-1011418)) >>> (3 : Nat))
      + ((v1 * 921678) >>> (1 : Nat)),
    (((data * 759505) >>> (4 : Nat)) + ((v0 * (-1011418)) >>> (3 : Nat))
      + ((v1 * 921678) >>> (1 : Nat))) + 262144,
    bessel2Tmp data v0 v1 ]

/-- The Chebyshev order 1 accumulator (lines 84-86) evaluated in a `long` of
`w` bits: every product and sum is reduced to the signed `w`-bit range. -/
def chebyshev1TmpW (w : Nat) (data v0 : Int) : Int :=
  (wrapLong w (wrapLong w ((wrapLong w (data * 3269048)) >>> (2 : Nat)
    + (wrapLong w (v0 * 3701023)) >>> (3 : Nat)
    ) + 1048576)) >>> (21 : Nat)

/-- The Chebyshev order 2 accumulator (lines 94-97) evaluated in a `long` of
`w` bits. -/
def chebyshev2TmpW (w : Nat) (data v0 v1 : Int) : Int :=
  (wrapLong w (wrapLong w (wrapLong w ((wrapLong w (data * 662828)) >>> (4 : Nat)
    + (wrapLong w (v0 * (-540791))) >>> (1 : Nat))
    + wrapLong w (v1 * 628977)
    ) + 262144)) >>> (19 : Nat)

/-- The Bessel order 1 accumulator (lines 112-114) evaluated in a `long` of
`w` bits. -/
def bessel1TmpW (w : Nat) (data v0 : Int) : Int :=
  (wrapLong w (wrapLong w ((wrapLong w (data * 2057199)) >>> (3 : Nat)
    + (wrapLong w (v0 * 1068552)) >>> (1 : Nat)
    ) + 524288)) >>> (20 : Nat)

/-- The Bessel order 2 accumulator (lines 122-125) evaluated in a `long` of
`w` bits. -/
def bessel2TmpW (w : Nat) (data v0 v1 : Int) : Int :=
  (wrapLong w (wrapLong w (wrapLong w ((wrapLong w (data * 759505)) >>> (4 : Nat)
    + (wrapLong w (v0 * (-1011418))) >>> (3 : Nat))
    + (wrapLong w (v1 * 921678)) >>> (1 : Nat)
    ) + 262144)) >>> (19 : Nat)

/-- The move of the fast tracker in the words of the specification: 1 plus
those of the jumps 512, 128, 32, 8, tested in this order, each against the gap
that remains after the jumps taken before it, that the remaining gap strictly
exceeds. -/
def cascadeMove (gap : Int) : Int :=
  let j1 := if gap > 512 then 512 else 0
  let j2 := if gap - j1 > 128 then 128 else 0
  let j3 := if gap - j1 - j2 > 32 then 32 else 0
  let j4 := if gap - j1 - j2 - j3 > 8 then 8 else 0
  j1 + j2 + j3 + j4 + 1

/-- Reduction to the signed range of `w` bits (two's complement wrap): the
value an arithmetic result takes in an `int` of `w` bits. -/
def wrapInt (w : Nat) (x : Int) : Int := (x + 2 ^ (w - 1)) % 2 ^ w - 2 ^ (w - 1)

/-- The update of `_helper` by the `g` strategy (lines 237-260) on a target
whose `int` has `w` bits: every sum and difference is reduced to `w` bits. -/
def growFastW (w : Nat) (helper data : Int) : Int :=
  if data > helper then
    let h := if data > wrapInt w (helper + 512) then wrapInt w (helper + 512) else helper
    let h := if data > wrapInt w (h + 128) then wrapInt w (h + 128) else h
    let h := if data > wrapInt w (h + 32) then wrapInt w (h + 32) else h
    let h := if data > wrapInt w (h + 8) then wrapInt w (h + 8) else h
    wrapInt w (h + 1)
  else if data < helper then
    let h := if data < wrapInt w (helper - 512) then wrapInt w (helper - 512) else helper
    let h := if data < wrapInt w (h - 128) then wrapInt w (h - 128) else h
    let h := if data < wrapInt w (h - 32) then wrapInt w (h - 32) else h
    let h := if data < wrapInt w (h - 8) then wrapInt w (h - 8) else h
    wrapInt w (h - 1)
  else helper

/-- The update of `(_helper, _counter)` by the `h` strategy (lines 266-288) on
a target whose `int` has `w` bits. -/
def growSmoothW (w : Nat) (helper counter data : Int) : Int × Int :=
  let hc : Int × Int :=
    if data > helper then
      let hc : Int × Int :=
        if data > wrapInt w (helper + 8) then
          (wrapInt w (helper + wrapInt w (8 * wrapInt w (counter + 1))),
            wrapInt w (counter + 1))
        else (helper, counter)
      (wrapInt w (hc.1 + 1), hc.2)
    else if data < helper then
      let hc : Int × Int :=
        if data < wrapInt w (helper - 8) then
          (wrapInt w (helper - wrapInt w (8 * wrapInt w (counter + 1))),
            wrapInt w (counter + 1))
        else (helper, counter)
      (wrapInt w (hc.1 - 1), hc.2)
    else (helper, counter)
  if hc.2 > 10 then (hc.1, 0) else hc

/-- Member `run(int data)` (lines 73-295) on a target whose `int` has `wi`
bits and whose `long` has `wl` bits (16 and 32 on the AVR Arduino boards, 32
and 32 on the ARM boards): the result of every `int` operation is reduced to
`wi` bits and the result of every `long` operation to `wl` bits.  The sample
and the fields are taken within the range of `int`. -/
def runW (wi wl : Nat) (s : SignalFilter) (data : Int) : Int × SignalFilter :=
  if s.filter = 'c' then
    if s.order = 1 then
      let v0 := s.v1
      let v1 := toShort (chebyshev1TmpW wl data v0)
      (toShort (wrapInt wi (v0 + v1)), { s with v0 := v0, v1 := v1 })
    else if s.order = 2 then
      let v0 := s.v1
      let v1 := s.v2
      let v2 := toShort (chebyshev2TmpW wl data v0 v1)
      (toShort (wrapInt wi (wrapInt wi (v0 + v2) + wrapInt wi (2 * v1))),
        { s with v0 := v0, v1 := v1, v2 := v2 })
    else (0, s)
  else if s.filter = 'b' then
    if s.order = 1 then
      let v0 := s.v1
      let v1 := toShort (bessel1TmpW wl data v0)
      (toShort (wrapInt wi (v0 + v1)), { s with v0 := v0, v1 := v1 })
    else if s.order = 2 then
      let v0 := s.v1
      let v1 := s.v2
      let v2 := toShort (bessel2TmpW wl data v0 v1)
      (toShort (wrapInt wi (wrapInt wi (v0 + v2) + wrapInt wi (2 * v1))),
        { s with v0 := v0, v1 := v1, v2 := v2 })
    else (0, s)
  else if s.filter = 'm' then
    let m := medianTree s.v1 s.v2 data
    (m, { s with v0 := s.v1, v1 := s.v2, v2 := data, median := m })
  else if s.filter = 'n' then
    let s1 := { s with v0 := s.v1, v1 := s.v2, v2 := data }
    match medianRange s.v1 s.v2 data with
    | some r => (r, s1)
    | none => (0, s1)
  else if s.filter = '0' then
    (medianMiddle s.v1 s.v2 data, { s with v0 := s.v1, v1 := s.v2, v2 := data })
  else if s.filter = 'g' then
    let h := growFastW wi s.helper data
    (h, { s with helper := h })
  else if s.filter = 'h' then
    let hc := growSmoothW wi s.helper s.counter data
    (hc.1, { s with helper := hc.1, counter := hc.2 })
  else (0, s)

/-- Successive calls of `run` on a target with `wi`-bit `int` and `wl`-bit
`long`: the returned values in call order and the state after the last call. -/
def runSeqW (wi wl : Nat) (s : SignalFilter) : List Int → List Int × SignalFilter
  | [] => ([], s)
  | x :: xs =>
    ((runW wi wl s x).1 :: (runSeqW wi wl (runW wi wl s x).2 xs).1,
      (runSeqW wi wl (runW wi wl s x).2 xs).2)

/-! ## Auxiliary lemmas -/

theorem statMedian_eq_medianTree (a b c : Int) : statMedian a b c = medianTree a b c := by
  unfold statMedian medianTree
  by_cases h1 : a ≤ b <;> by_cases h2 : a ≤ c <;> by_cases h3 : b ≤ c <;>
    simp [List.insertionSort, List.orderedInsert, h1, h2, h3] <;>
    (try split_ifs) <;> omega

theorem statMedian_eq_medianMiddle (a b c : Int) : statMedian a b c = medianMiddle a b c := by
  unfold statMedian medianMiddle
  by_cases h1 : a ≤ b <;> by_cases h2 : a ≤ c <;> by_cases h3 : b ≤ c <;>
    simp [List.insertionSort, List.orderedInsert, h1, h2, h3] <;>
    (try split_ifs) <;> omega

/-- The value `statMedian` picks is the middle of an ordered rearrangement of
the three inputs. -/
theorem statMedian_is_middle (a b c : Int) :
    ∃ lo hi : Int, List.Perm [a, b, c] [lo, statMedian a b c, hi] ∧
      lo ≤ statMedian a b c ∧ statMedian a b c ≤ hi := by
  rw [statMedian_eq_medianMiddle]
  unfold medianMiddle
  split_ifs with h1 h2 h3 h4 h5
  · exact ⟨a, c, List.Perm.refl _, by omega, by omega⟩
  · exact ⟨a, b, (List.Perm.swap c b []).cons a, by omega, by omega⟩
  · exact ⟨b, c, List.Perm.swap b a [c], by omega, by omega⟩
  · exact ⟨b, a, (List.Perm.swap b a [c]).trans ((List.Perm.swap c a []).cons b),
      by omega, by omega⟩
  · exact ⟨c, b, ((List.Perm.swap c b []).cons a).trans (List.Perm.swap c a [b]),
      by omega, by omega⟩
  · exact ⟨c, a, (((List.Perm.swap c b []).cons a).trans (List.Perm.swap c a [b])).trans
      ((List.Perm.swap b a []).cons c), by omega, by omega⟩

/-- A call of `run` never changes the strategy tag. -/
theorem run_filter (s : SignalFilter) (x : Int) : (run s x).2.filter = s.filter := by
  unfold run
  split_ifs <;> first | rfl | (split <;> rfl)

/-- The outputs of a concatenated input sequence. -/
theorem runSeq_append_fst (s : SignalFilter) (xs ys : List Int) :
    (runSeq s (xs ++ ys)).1 = (runSeq s xs).1 ++ (runSeq (runSeq s xs).2 ys).1 := by
  induction xs generalizing s with
  | nil => simp [runSeq]
  | cons x xs ih => simp [runSeq, ih]

/-- The final state of a concatenated input sequence. -/
theorem runSeq_append_snd (s : SignalFilter) (xs ys : List Int) :
    (runSeq s (xs ++ ys)).2 = (runSeq (runSeq s xs).2 ys).2 := by
  induction xs generalizing s with
  | nil => simp [runSeq]
  | cons x xs ih => simp [runSeq, ih]

/-- One output per input. -/
theorem runSeq_length (s : SignalFilter) (xs : List Int) :
    (runSeq s xs).1.length = xs.length := by
  induction xs generalizing s with
  | nil => simp [runSeq]
  | cons x xs ih => simp [runSeq, ih]

/-- A sequence of calls never changes the strategy tag. -/
theorem runSeq_filter (s : SignalFilter) (xs : List Int) :
    (runSeq s xs).2.filter = s.filter := by
  induction xs generalizing s with
  | nil => simp [runSeq]
  | cons x xs ih => simp [runSeq, ih, run_filter]

/-- The call `run(x)` under the `0` strategy. -/
theorem run_sorted (s : SignalFilter) (x : Int) (hf : s.filter = '0') :
    run s x = (medianMiddle s.v1 s.v2 x, { s with v0 := s.v1, v1 := s.v2, v2 := x }) := by
  simp [run, hf]

/-- Under the `0` strategy the third of three successive calls returns the
median of the three samples, whatever the window held before. -/
theorem runSeq_sorted_third (s : SignalFilter) (hf : s.filter = '0') (a b c : Int)
    (ys : List Int) :
    (runSeq s (a :: b :: c :: ys)).1[2]? = some (statMedian a b c) := by
  have h1 : (run s a).2.filter = '0' := by rw [run_filter, hf]
  have h2 : (run (run s a).2 b).2.filter = '0' := by rw [run_filter, h1]
  simp only [runSeq, List.getElem?_cons_succ, List.getElem?_cons_zero]
  rw [run_sorted _ c h2, run_sorted _ b h1, run_sorted _ a hf, statMedian_eq_medianMiddle]

/-- The shift `>>` on integers is the floor of the division by a power of two. -/
theorem shiftRight_eq_floor (x : Int) (k : Nat) : x >>> k = ⌊(x : ℚ) / 2 ^ k⌋ := by
  rw [Int.shiftRight_eq_div_pow]
  have h := Rat.floor_intCast_div_natCast x (2 ^ k)
  push_cast at h ⊢
  exact h.symm

/-- The cast to `short` lands in the 16-bit signed range, differs from its
argument by a multiple of 65536, and is the identity on that range. -/
theorem toShort_spec (x : Int) :
    -32768 ≤ toShort x ∧ toShort x ≤ 32767 ∧ (65536 : Int) ∣ (x - toShort x) ∧
      (-32768 ≤ x → x ≤ 32767 → toShort x = x) := by
  unfold toShort
  refine ⟨by omega, by omega, by omega, fun h1 h2 => by omega⟩

/-- One step of the fast tracker strictly shrinks a non-zero gap and keeps a
zero gap. -/
theorem growFast_gap (h d : Int) :
    (d - growFast h d).natAbs ≤ (d - h).natAbs - 1 := by
  unfold growFast
  dsimp only
  split_ifs <;> omega

/-- The call `run(d)` under the `g` strategy. -/
theorem run_fast (s : SignalFilter) (d : Int) (hf : s.filter = 'g') :
    run s d = (growFast s.helper d, { s with helper := growFast s.helper d }) := by
  simp [run, hf]

/-- Under the `g` strategy, `n` calls with the constant sample `d` close a gap
of at most `n`. -/
theorem runSeq_fast_helper (d : Int) (n : Nat) (s : SignalFilter) (hf : s.filter = 'g')
    (hn : (d - s.helper).natAbs ≤ n) :
    (runSeq s (List.replicate n d)).2.helper = d := by
  induction n generalizing s with
  | zero =>
    simp only [List.replicate, runSeq]
    omega
  | succ n ih =>
    simp only [List.replicate, runSeq]
    apply ih
    · rw [run_filter, hf]
    · rw [run_fast s d hf]
      have := growFast_gap s.helper d
      simp only
      omega

/-- The smooth tracker keeps its counter within 0..10. -/
theorem growSmooth_counter (h c d : Int) (h0 : 0 ≤ c) (h10 : c ≤ 10) :
    0 ≤ (growSmooth h c d).2 ∧ (growSmooth h c d).2 ≤ 10 := by
  unfold growSmooth
  dsimp only
  split_ifs <;> simp only [] <;> omega

/-- A call of `run` keeps the counter within 0..10. -/
theorem run_counter (s : SignalFilter) (x : Int) (h0 : 0 ≤ s.counter) (h10 : s.counter ≤ 10) :
    0 ≤ (run s x).2.counter ∧ (run s x).2.counter ≤ 10 := by
  unfold run
  split_ifs
  all_goals first
    | exact ⟨h0, h10⟩
    | exact growSmooth_counter s.helper s.counter x h0 h10
    | (split <;> exact ⟨h0, h10⟩)

/-- A sequence of calls from a reachable state ends in a reachable state. -/
theorem Reachable.runSeq (s : SignalFilter) (xs : List Int) (hr : Reachable s) :
    Reachable (SignalFilter.runSeq s xs).2 := by
  induction xs generalizing s with
  | nil => exact hr
  | cons x xs ih => exact ih _ (Reachable.afterRun s x hr)

/-- Two engines in the same low-pass mode with the same order and window
return the same value and stay in agreement after one call. -/
theorem run_lowpass_agree (s t : SignalFilter) (x : Int)
    (hf : s.filter = 'c' ∨ s.filter = 'b') (hft : t.filter = s.filter)
    (ho : t.order = s.order) (h0 : t.v0 = s.v0) (h1 : t.v1 = s.v1) (h2 : t.v2 = s.v2) :
    (run t x).1 = (run s x).1 ∧ (run t x).2.filter = (run s x).2.filter ∧
    (run t x).2.order = (run s x).2.order ∧ (run t x).2.v0 = (run s x).2.v0 ∧
    (run t x).2.v1 = (run s x).2.v1 ∧ (run t x).2.v2 = (run s x).2.v2 := by
  rcases hf with hf | hf
  all_goals
    rw [hf] at hft
    simp only [run, hf, hft, ho, h1, h2, Char.reduceEq, if_true, if_false]
    split_ifs <;> simp [hf, hft, ho, h0, h1, h2]

/-- A call of `run` never changes the order. -/
theorem run_order (s : SignalFilter) (x : Int) : (run s x).2.order = s.order := by
  unfold run
  split_ifs <;> first | rfl | (split <;> rfl)

/-- The range tests of the `n` strategy pick the median of pairwise distinct
values and fail on a tie. -/
theorem medianRange_eq (a b c : Int) :
    medianRange a b c = if a ≠ b ∧ a ≠ c ∧ b ≠ c then some (statMedian a b c) else none := by
  rw [statMedian_eq_medianMiddle]
  unfold medianRange medianMiddle
  split_ifs <;> first | rfl | (exfalso; omega)

/-- The shift `>>` on integers as a division. -/
theorem shiftRight_eq_div (x : Int) (k : Nat) : x >>> k = x / 2 ^ k := by
  rw [Int.shiftRight_eq_div_pow]; push_cast; rfl

/-- A value inside the signed `w`-bit range is left as it is by the wrap. -/
theorem wrapLong_eq_self (w : Nat) (hw : 0 < w) (x : Int)
    (h : -2 ^ (w - 1) ≤ x ∧ x < 2 ^ (w - 1)) : wrapLong w x = x := by
  unfold wrapLong
  have hp : (2 : Int) ^ w = 2 * 2 ^ (w - 1) := by
    rw [← pow_succ']
    congr 1
    omega
  rw [hp]
  generalize (2 : Int) ^ (w - 1) = p at h ⊢
  rw [Int.emod_eq_of_lt (by omega) (by omega)]
  omega

/-- When every step of the Chebyshev order 1 accumulator fits `w` bits, the `w`-bit
evaluation gives the exact value. -/
theorem chebyshev1TmpW_eq (w : Nat) (hw : 0 < w) (data v0 : Int)
    (h : ∀ y ∈ chebyshev1Steps data v0, -2 ^ (w - 1) ≤ y ∧ y < 2 ^ (w - 1)) :
    chebyshev1TmpW w data v0 = chebyshev1Tmp data v0 := by
  unfold chebyshev1TmpW chebyshev1Tmp
  rw [wrapLong_eq_self w hw (data * 3269048) (h _ (by simp [chebyshev1Steps])),
    wrapLong_eq_self w hw (v0 * 3701023) (h _ (by simp [chebyshev1Steps])),
    wrapLong_eq_self w hw _ (h (((data * 3269048) >>> (2 : Nat)) + ((v0 * 3701023) >>> (3 : Nat)))
      (by simp [chebyshev1Steps])),
    wrapLong_eq_self w hw _ (h ((((data * 3269048) >>> (2 : Nat))
      + ((v0 * 3701023) >>> (3 : Nat))) + 1048576) (by simp [chebyshev1Steps]))]

/-- When every step of the Chebyshev order 2 accumulator fits `w` bits, the `w`-bit
evaluation gives the exact value. -/
theorem chebyshev2TmpW_eq (w : Nat) (hw : 0 < w) (data v0 v1 : Int)
    (h : ∀ y ∈ chebyshev2Steps data v0 v1, -2 ^ (w - 1) ≤ y ∧ y < 2 ^ (w - 1)) :
    chebyshev2TmpW w data v0 v1 = chebyshev2Tmp data v0 v1 := by
  unfold chebyshev2TmpW chebyshev2Tmp
  rw [wrapLong_eq_self w hw (data * 662828) (h _ (by simp [chebyshev2Steps])),
    wrapLong_eq_self w hw (v0 * (-540791)) (h _ (by simp [chebyshev2Steps])),
    wrapLong_eq_self w hw (v1 * 628977) (h _ (by simp [chebyshev2Steps])),
    wrapLong_eq_self w hw _ (h (((data * 662828) >>> (4 : Nat))
      + ((v0 * (-540791)) >>> (1 : Nat))) (by simp [chebyshev2Steps])),
    wrapLong_eq_self w hw _ (h (((data * 662828) >>> (4 : Nat))
      + ((v0 * (-540791)) >>> (1 : Nat)) + (v1 * 628977)) (by simp [chebyshev2Steps])),
    wrapLong_eq_self w hw _ (h ((((data * 662828) >>> (4 : Nat))
      + ((v0 * (-540791)) >>> (1 : Nat)) + (v1 * 628977)) + 262144)
      (by simp [chebyshev2Steps]))]

/-- When every step of the Bessel order 1 accumulator fits `w` bits, the `w`-bit
evaluation gives the exact value. -/
theorem bessel1TmpW_eq (w : Nat) (hw : 0 < w) (data v0 : Int)
    (h : ∀ y ∈ bessel1Steps data v0, -2 ^ (w - 1) ≤ y ∧ y < 2 ^ (w - 1)) :
    bessel1TmpW w data v0 = bessel1Tmp data v0 := by
  unfold bessel1TmpW bessel1Tmp
  rw [wrapLong_eq_self w hw (data * 2057199) (h _ (by simp [bessel1Steps])),
    wrapLong_eq_self w hw (v0 * 1068552) (h _ (by simp [bessel1Steps])),
    wrapLong_eq_self w hw _ (h (((data * 2057199) >>> (3 : Nat)) + ((v0 * 1068552) >>> (1 : Nat)))
      (by simp [bessel1Steps])),
    wrapLong_eq_self w hw _ (h ((((data * 2057199) >>> (3 : Nat))
      + ((v0 * 1068552) >>> (1 : Nat))) + 524288) (by simp [bessel1Steps]))]

/-- When every step of the Bessel order 2 accumulator fits `w` bits, the `w`-bit
evaluation gives the exact value. -/
theorem bessel2TmpW_eq (w : Nat) (hw : 0 < w) (data v0 v1 : Int)
    (h : ∀ y ∈ bessel2Steps data v0 v1, -2 ^ (w - 1) ≤ y ∧ y < 2 ^ (w - 1)) :
    bessel2TmpW w data v0 v1 = bessel2Tmp data v0 v1 := by
  unfold bessel2TmpW bessel2Tmp
  rw [wrapLong_eq_self w hw (data * 759505) (h _ (by simp [bessel2Steps])),
    wrapLong_eq_self w hw (v0 * (-1011418)) (h _ (by simp [bessel2Steps])),
    wrapLong_eq_self w hw (v1 * 921678) (h _ (by simp [bessel2Steps])),
    wrapLong_eq_self w hw _ (h (((data * 759505) >>> (4 : Nat))
      + ((v0 * (-1011418)) >>> (3 : Nat))) (by simp [bessel2Steps])),
    wrapLong_eq_self w hw _ (h (((data * 759505) >>> (4 : Nat))
      + ((v0 * (-1011418)) >>> (3 : Nat)) + ((v1 * 921678) >>> (1 : Nat)))
      (by simp [bessel2Steps])),
    wrapLong_eq_self w hw _ (h ((((data * 759505) >>> (4 : Nat))
      + ((v0 * (-1011418)) >>> (3 : Nat)) + ((v1 * 921678) >>> (1 : Nat))) + 262144)
      (by simp [bessel2Steps]))]

/-- A value inside the signed `w`-bit range is left as it is by the wrap. -/
theorem wrapInt_eq_self (w : Nat) (hw : 0 < w) (x : Int)
    (h : -2 ^ (w - 1) ≤ x ∧ x < 2 ^ (w - 1)) : wrapInt w x = x :=
  wrapLong_eq_self w hw x h

/-- The wrap to at least 16 bits differs from its argument by a multiple of
65536. -/
theorem wrapInt_congr (w : Nat) (hw : 16 ≤ w) (x : Int) :
    ∃ t : Int, wrapInt w x = x - 65536 * t := by
  obtain ⟨k, rfl⟩ : ∃ k, w = k + 16 := ⟨w - 16, by omega⟩
  refine ⟨2 ^ k * ((x + 2 ^ (k + 16 - 1)) / 2 ^ (k + 16)), ?_⟩
  unfold wrapInt
  rw [Int.emod_def]
  have h1 : (2 : Int) ^ (k + 16) = 65536 * 2 ^ k := by
    rw [pow_add]; norm_num; ring
  rw [h1]
  ring

/-- A `short` cast after an `int` operation of at least 16 bits sees the exact
result. -/
theorem toShort_wrapInt (w : Nat) (hw : 16 ≤ w) (x : Int) :
    toShort (wrapInt w x) = toShort x := by
  obtain ⟨t, ht⟩ := wrapInt_congr w hw x
  rw [ht]
  unfold toShort
  omega

/-- The `short` cast of a sum of two `int` results of at least 16 bits sees
the exact sum. -/
theorem toShort_wrapInt_add (w : Nat) (hw : 16 ≤ w) (a b : Int) :
    toShort (wrapInt w a + wrapInt w b) = toShort (a + b) := by
  obtain ⟨t1, h1⟩ := wrapInt_congr w hw a
  obtain ⟨t2, h2⟩ := wrapInt_congr w hw b
  rw [h1, h2]
  unfold toShort
  omega

/-- In the low-pass modes the call on a target with `wi`-bit `int` (at least
16 bits) and `wl`-bit `long` is the call in exact arithmetic whenever every
product and sum of the four accumulators lies within the signed `wl`-bit
range. -/
theorem runW_eq_run_lowpass (wi wl : Nat) (hwi : 16 ≤ wi) (hwl : 0 < wl)
    (s : SignalFilter) (x : Int) (hf : s.filter = 'c' ∨ s.filter = 'b')
    (hfit : ∀ y ∈ chebyshev1Steps x s.v1 ++ chebyshev2Steps x s.v1 s.v2
      ++ bessel1Steps x s.v1 ++ bessel2Steps x s.v1 s.v2,
      -2 ^ (wl - 1) ≤ y ∧ y < 2 ^ (wl - 1)) :
    runW wi wl s x = run s x := by
  have e1 := chebyshev1TmpW_eq wl hwl x s.v1 (fun y hy => hfit y (by simp [hy]))
  have e2 := chebyshev2TmpW_eq wl hwl x s.v1 s.v2 (fun y hy => hfit y (by simp [hy]))
  have e3 := bessel1TmpW_eq wl hwl x s.v1 (fun y hy => hfit y (by simp [hy]))
  have e4 := bessel2TmpW_eq wl hwl x s.v1 s.v2 (fun y hy => hfit y (by simp [hy]))
  rcases hf with hf | hf <;>
    simp only [runW, run, hf, e1, e2, e3, e4, toShort_wrapInt wi hwi,
      toShort_wrapInt_add wi hwi, Char.reduceEq, if_true, if_false]

/-- The fast tracker on a `w`-bit `int` is the tracker in exact arithmetic
whenever the helper is at least 681 away from both ends of the `int` range. -/
theorem growFastW_eq (w : Nat) (hw : 0 < w) (h d : Int)
    (hlo : -2 ^ (w - 1) ≤ h - 681) (hhi : h + 681 < 2 ^ (w - 1)) :
    growFastW w h d = growFast h d := by
  have key : ∀ y : Int, h - 681 ≤ y → y ≤ h + 681 → wrapInt w y = y :=
    fun y h1 h2 => wrapInt_eq_self w hw y ⟨by omega, by omega⟩
  unfold growFastW growFast
  dsimp only
  rw [key (h + 512) (by omega) (by omega), key (h - 512) (by omega) (by omega)]
  rw [key (_ + 128) (by split_ifs <;> omega) (by split_ifs <;> omega),
    key (_ - 128) (by split_ifs <;> omega) (by split_ifs <;> omega)]
  rw [key (_ + 32) (by split_ifs <;> omega) (by split_ifs <;> omega),
    key (_ - 32) (by split_ifs <;> omega) (by split_ifs <;> omega)]
  rw [key (_ + 8) (by split_ifs <;> omega) (by split_ifs <;> omega),
    key (_ - 8) (by split_ifs <;> omega) (by split_ifs <;> omega)]
  rw [key (_ + 1) (by split_ifs <;> omega) (by split_ifs <;> omega),
    key (_ - 1) (by split_ifs <;> omega) (by split_ifs <;> omega)]

/-- The smooth tracker on a `w`-bit `int` (at least 8 bits) is the tracker in
exact arithmetic whenever the counter is between 0 and 10 and the helper is
at least 89 away from both ends of the `int` range. -/
theorem growSmoothW_eq (w : Nat) (hw : 8 ≤ w) (h c d : Int)
    (hc0 : 0 ≤ c) (hc10 : c ≤ 10)
    (hlo : -2 ^ (w - 1) ≤ h - 89) (hhi : h + 89 < 2 ^ (w - 1)) :
    growSmoothW w h c d = growSmooth h c d := by
  have hp : (128 : Int) ≤ 2 ^ (w - 1) := by
    have : (2 : Int) ^ 7 ≤ 2 ^ (w - 1) := pow_le_pow_right₀ (by norm_num) (by omega)
    simpa using this
  have key : ∀ y : Int, -100 ≤ y → y ≤ 100 → wrapInt w y = y :=
    fun y h1 h2 => wrapInt_eq_self w (by omega) y ⟨by omega, by omega⟩
  have key2 : ∀ y : Int, h - 89 ≤ y → y ≤ h + 89 → wrapInt w y = y :=
    fun y h1 h2 => wrapInt_eq_self w (by omega) y ⟨by omega, by omega⟩
  unfold growSmoothW growSmooth
  dsimp only
  rw [key (c + 1) (by omega) (by omega), key (8 * (c + 1)) (by omega) (by omega),
    key2 (h + 8) (by omega) (by omega), key2 (h - 8) (by omega) (by omega),
    key2 (h + 8 * (c + 1)) (by omega) (by omega), key2 (h - 8 * (c + 1)) (by omega) (by omega)]
  rw [key2 (_ + 1) (by split_ifs <;> simp only <;> omega) (by split_ifs <;> simp only <;> omega),
    key2 (_ - 1) (by split_ifs <;> simp only <;> omega) (by split_ifs <;> simp only <;> omega)]

/-- Outside the low-pass and tracker modes the call involves no arithmetic:
it is the same on every target as in exact arithmetic. -/
theorem runW_eq_run_other (wi wl : Nat) (s : SignalFilter) (x : Int)
    (hc : s.filter ≠ 'c') (hb : s.filter ≠ 'b') (hg : s.filter ≠ 'g') (hh : s.filter ≠ 'h') :
    runW wi wl s x = run s x := by
  simp only [runW, run, hc, hb, hg, hh, if_false]

/-- In mode TrackFast the call on a target with `wi`-bit `int` is the call in
exact arithmetic whenever the helper is at least 681 away from both ends of
the `int` range. -/
theorem runW_eq_run_fast (wi wl : Nat) (hwi : 0 < wi) (s : SignalFilter) (x : Int)
    (hf : s.filter = 'g')
    (hlo : -2 ^ (wi - 1) ≤ s.helper - 681) (hhi : s.helper + 681 < 2 ^ (wi - 1)) :
    runW wi wl s x = run s x := by
  simp only [runW, run, hf, growFastW_eq wi hwi s.helper x hlo hhi, Char.reduceEq,
    if_true, if_false]

/-- In mode TrackSmooth the call on a target with `wi`-bit `int` is the call
in exact arithmetic whenever the counter is between 0 and 10 and the helper
is at least 89 away from both ends of the `int` range. -/
theorem runW_eq_run_smooth (wi wl : Nat) (hwi : 8 ≤ wi) (s : SignalFilter) (x : Int)
    (hf : s.filter = 'h') (hc0 : 0 ≤ s.counter) (hc10 : s.counter ≤ 10)
    (hlo : -2 ^ (wi - 1) ≤ s.helper - 89) (hhi : s.helper + 89 < 2 ^ (wi - 1)) :
    runW wi wl s x = run s x := by
  simp only [runW, run, hf, growSmoothW_eq wi hwi s.helper s.counter x hc0 hc10 hlo hhi,
    Char.reduceEq, if_true, if_false]


/-- The move of the cascade is between 1 and 681 and never exceeds a positive
gap; it is 1 for gaps up to 8 and 681 for gaps beyond 680. -/
theorem cascadeMove_bounds (g : Int) :
    1 ≤ cascadeMove g ∧ cascadeMove g ≤ 681 ∧ (g ≤ 8 → cascadeMove g = 1) ∧
      (680 < g → cascadeMove g = 681) ∧ (0 < g → cascadeMove g ≤ g) := by
  unfold cascadeMove
  dsimp only
  split_ifs <;> omega

/-- The fast tracker below the sample moves up by the cascade of the gap. -/
theorem growFast_up (h d : Int) (hgt : d > h) : growFast h d = h + cascadeMove (d - h) := by
  unfold growFast
  rw [if_pos hgt]
  dsimp only
  split_ifs <;> (unfold cascadeMove; dsimp only; split_ifs <;> omega)

/-- The fast tracker above the sample moves down by the cascade of the gap. -/
theorem growFast_down (h d : Int) (hlt : d < h) : growFast h d = h - cascadeMove (h - d) := by
  unfold growFast
  rw [if_neg (by omega), if_pos hlt]
  dsimp only
  split_ifs <;> (unfold cascadeMove; dsimp only; split_ifs <;> omega)

/-- The call `run(x)` under a median strategy shifts the window and stores the
sample. -/
theorem run_median_window (s : SignalFilter) (x : Int)
    (hf : s.filter = 'm' ∨ s.filter = 'n' ∨ s.filter = '0') :
    (run s x).2.v0 = s.v1 ∧ (run s x).2.v1 = s.v2 ∧ (run s x).2.v2 = x := by
  rcases hf with hf | hf | hf
  · simp [run, hf]
  · simp only [run, hf, Char.reduceEq, if_true, if_false]
    split <;> simp
  · simp [run, hf]

/-- The call `run(d)` under the `h` strategy. -/
theorem run_smooth (s : SignalFilter) (d : Int) (hf : s.filter = 'h') :
    run s d = ((growSmooth s.helper s.counter d).1,
      { s with helper := (growSmooth s.helper s.counter d).1,
               counter := (growSmooth s.helper s.counter d).2 }) := by
  simp [run, hf]

/-- The counter of a reachable state lies between 0 and 10. -/
theorem Reachable.counter_bounds (s : SignalFilter) (hr : Reachable s) :
    0 ≤ s.counter ∧ s.counter ≤ 10 := by
  induction hr with
  | fresh => decide
  | afterSetFilter s f _ ih => exact ih
  | afterSetOrder s o _ ih => exact ih
  | afterBegin s _ ih => exact ih
  | afterRun s x _ ih => exact run_counter s x ih.1 ih.2

/-! ## Median strategies -/

/-- C1: for every state (window `v0, v1, v2`) and every sample `x`, the call
`run(x)` under the strategy `m` and under the strategy `0` returns the
statistical median of `v1, v2, x`, ties included.  Every state in mode `m`
(respectively `0`) is of the form `setFilter s m`. -/
theorem run_median_fast_sorted_is_median (s : SignalFilter) (x : Int) :
    (run (setFilter s 'm') x).1 = statMedian s.v1 s.v2 x ∧
    (run (setFilter s '0') x).1 = statMedian s.v1 s.v2 x := by
  constructor
  · simp [run, setFilter, statMedian_eq_medianTree]
  · simp [run, setFilter, statMedian_eq_medianMiddle]

/-- C2: the code at the failing input.  A fresh engine fed 5, 5 holds the
window 0, 5, 5 at its second call; the strategies `m` and `0` return the median
5 there, the strategy `n` matches none of its strict range tests and returns
the fall-through value 0. -/
theorem median_readable_tie_falls_through :
    (runSeq (setFilter new 'n') [5, 5]).1 = [0, 0] ∧
    (runSeq (setFilter new 'm') [5, 5]).1 = [0, 5] ∧
    (runSeq (setFilter new '0') [5, 5]).1 = [0, 5] ∧
    statMedian 0 5 5 = 5 ∧
    medianRange 0 5 5 = none := by
  decide

/-- C3: a fresh engine set to the strategy `0` and fed any sequence returns,
at every call from the third on, the median of the last three samples
(`a, b, c` are the samples of calls `n-2, n-1, n`, with `xs` before and `ys`
after them); its first two calls return the medians of `0, 0, x1` and of
`0, x1, x2`; fed 5, 1, 9 it returns 5 at the third call. -/
theorem median_sorted_fresh_sequence (xs ys : List Int) (a b c x1 x2 : Int) :
    (runSeq (setFilter new '0') (xs ++ a :: b :: c :: ys)).1[xs.length + 2]?
      = some (statMedian a b c) ∧
    (runSeq (setFilter new '0') (xs ++ a :: b :: c :: ys)).1.length
      = (xs ++ a :: b :: c :: ys).length ∧
    (runSeq (setFilter new '0') (x1 :: ys)).1[0]? = some (statMedian 0 0 x1) ∧
    (runSeq (setFilter new '0') (x1 :: x2 :: ys)).1[1]? = some (statMedian 0 x1 x2) ∧
    (runSeq (setFilter new '0') [5, 1, 9]).1 = [0, 1, 5] := by
  refine ⟨?_, runSeq_length _ _, ?_, ?_, by decide⟩
  · rw [runSeq_append_fst, List.getElem?_append_right (by rw [runSeq_length]; omega)]
    have hf : (runSeq (setFilter new '0') xs).2.filter = '0' := by
      rw [runSeq_filter]; rfl
    have hi : xs.length + 2 - (runSeq (setFilter new '0') xs).1.length = 2 := by
      rw [runSeq_length]; omega
    rw [hi]
    exact runSeq_sorted_third _ hf a b c ys
  · simp [runSeq, run, setFilter, new, statMedian_eq_medianMiddle]
  · simp [runSeq, run, setFilter, new, statMedian_eq_medianMiddle]

/-! ## Fixed-point low-pass strategies -/

/-- C4: in mode Chebyshev (`c`) order 1, for every state and sample `x`, the
call `run(x)` sets `v0` to the old `v1`, sets `v1` to the `short` cast of
`((x*3269048 >> 2) + (v1*3701023 >> 3) + 1048576) >> 21` (old `v1`, the shifts
being floors of divisions by powers of two), leaves `v2` unchanged and returns
the `short` cast of the sum of the new `v0` and `v1`; a fresh engine after
`begin()` fed 0, 100, 100, 100, 100 returns 0, 39, 87, 98, 100. -/
theorem run_chebyshev_order1 (s : SignalFilter) (x : Int) :
    (run (setOrder (setFilter s 'c') 1) x).2.v0 = s.v1 ∧
    (run (setOrder (setFilter s 'c') 1) x).2.v1
      = toShort ((((x * 3269048) >>> (2 : Nat)) + ((s.v1 * 3701023) >>> (3 : Nat))
          + 1048576) >>> (21 : Nat)) ∧
    (run (setOrder (setFilter s 'c') 1) x).2.v1
      = toShort ⌊((⌊((x * 3269048 : Int) : ℚ) / 2 ^ 2⌋
          + ⌊((s.v1 * 3701023 : Int) : ℚ) / 2 ^ 3⌋ + 1048576 : Int) : ℚ) / 2 ^ 21⌋ ∧
    (run (setOrder (setFilter s 'c') 1) x).2.v2 = s.v2 ∧
    (run (setOrder (setFilter s 'c') 1) x).1
      = toShort ((run (setOrder (setFilter s 'c') 1) x).2.v0
          + (run (setOrder (setFilter s 'c') 1) x).2.v1) ∧
    (runSeq (begin new) [0, 100, 100, 100, 100]).1 = [0, 39, 87, 98, 100] := by
  refine ⟨?_, ?_, ?_, ?_, ?_, by decide⟩
  · simp [run, setFilter, setOrder]
  · simp [run, setFilter, setOrder, chebyshev1Tmp]
  · simp only [← shiftRight_eq_floor]
    simp [run, setFilter, setOrder, chebyshev1Tmp]
  · simp [run, setFilter, setOrder]
  · simp [run, setFilter, setOrder]

/-- Chebyshev order 2 in exact arithmetic: the call `run(x)` shifts
`v0 := v1`, `v1 := v2`, sets `v2` to the `short` cast of
`((x*662828 >> 4) + (v0*(-540791) >> 1) + v1*628977 + 262144) >> 19` over the
shifted `v0`, `v1`, and returns the `short` cast of `v0 + v2 + 2*v1` over the
window after the update.  The code computes this as long as no product or sum
leaves the range of `long` (`runW_eq_run_lowpass`). -/
theorem run_chebyshev_order2 (s : SignalFilter) (x : Int) :
    (run (setOrder (setFilter s 'c') 2) x).2.v0 = s.v1 ∧
    (run (setOrder (setFilter s 'c') 2) x).2.v1 = s.v2 ∧
    (run (setOrder (setFilter s 'c') 2) x).2.v2
      = toShort ((((x * 662828) >>> (4 : Nat)) + ((s.v1 * (-540791)) >>> (1 : Nat)) + s.v2 * 628977
          + 262144) >>> (19 : Nat)) ∧
    (run (setOrder (setFilter s 'c') 2) x).1
      = toShort ((run (setOrder (setFilter s 'c') 2) x).2.v0
          + (run (setOrder (setFilter s 'c') 2) x).2.v2
          + 2 * (run (setOrder (setFilter s 'c') 2) x).2.v1) := by
  refine ⟨?_, ?_, ?_, ?_⟩ <;> simp [run, setFilter, setOrder, chebyshev2Tmp]

/-- Bessel in exact arithmetic: the call `run(x)` has the shape of the
Chebyshev call of the same order with the Bessel constants.  Order 1:
`v0 := v1`, `v1` becomes the `short` cast of
`((x*2057199 >> 3) + (v1*1068552 >> 1) + 524288) >> 20` (old `v1`), `v2` is
kept, and the sum of the new `v0`, `v1` is returned.  Order 2: `v0 := v1`,
`v1 := v2`, `v2` becomes the `short` cast of
`((x*759505 >> 4) + (v0*(-1011418) >> 3) + (v1*921678 >> 1) + 262144) >> 19`
over the shifted values, and `v0 + v2 + 2*v1` of the new window is returned.
The code computes this as long as no product or sum leaves the range of
`long` (`runW_eq_run_lowpass`). -/
theorem run_bessel (s : SignalFilter) (x : Int) :
    ((run (setOrder (setFilter s 'b') 1) x).2.v0 = s.v1 ∧
     (run (setOrder (setFilter s 'b') 1) x).2.v1
       = toShort ((((x * 2057199) >>> (3 : Nat)) + ((s.v1 * 1068552) >>> (1 : Nat))
           + 524288) >>> (20 : Nat)) ∧
     (run (setOrder (setFilter s 'b') 1) x).2.v2 = s.v2 ∧
     (run (setOrder (setFilter s 'b') 1) x).1
       = toShort ((run (setOrder (setFilter s 'b') 1) x).2.v0
           + (run (setOrder (setFilter s 'b') 1) x).2.v1)) ∧
    ((run (setOrder (setFilter s 'b') 2) x).2.v0 = s.v1 ∧
     (run (setOrder (setFilter s 'b') 2) x).2.v1 = s.v2 ∧
     (run (setOrder (setFilter s 'b') 2) x).2.v2
       = toShort ((((x * 759505) >>> (4 : Nat)) + ((s.v1 * (-1011418)) >>> (3 : Nat))
           + ((s.v2 * 921678) >>> (1 : Nat)) + 262144) >>> (19 : Nat)) ∧
     (run (setOrder (setFilter s 'b') 2) x).1
       = toShort ((run (setOrder (setFilter s 'b') 2) x).2.v0
           + (run (setOrder (setFilter s 'b') 2) x).2.v2
           + 2 * (run (setOrder (setFilter s 'b') 2) x).2.v1)) := by
  refine ⟨⟨?_, ?_, ?_, ?_⟩, ⟨?_, ?_, ?_, ?_⟩⟩ <;>
    simp [run, setFilter, setOrder, bessel1Tmp, bessel2Tmp]

/-! ## Adaptive trackers -/

/-- C7: in mode TrackFast (`g`), for every state (helper `h`) and sample `d`,
after any number `n` of calls `run(d)` with `n` at least `|d - h|` the helper
equals `d`, and one more call `run(d)` returns `d` and leaves the state as it
is.  Taking `n = |d - h|` the helper has reached `d` after at most `|d - h|`
calls. -/
theorem track_fast_converges (s : SignalFilter) (d : Int) (n : Nat)
    (hf : s.filter = 'g') (hn : (d - s.helper).natAbs ≤ n) :
    (runSeq s (List.replicate n d)).2.helper = d ∧
    run (runSeq s (List.replicate n d)).2 d = (d, (runSeq s (List.replicate n d)).2) := by
  have hh := runSeq_fast_helper d n s hf hn
  have hg : (runSeq s (List.replicate n d)).2.filter = 'g' := by rw [runSeq_filter, hf]
  refine ⟨hh, ?_⟩
  have hd : growFast d d = d := by simp [growFast]
  rw [run_fast _ d hg, hh, hd]
  generalize (runSeq s (List.replicate n d)).2 = t at hh
  cases t
  simp only at hh
  rw [hh]

/-- Witness of C7: a fresh engine in mode `g` (helper 0) fed the constant 20
for 20 calls. -/
theorem track_fast_converges_witness :
    (setFilter new 'g').filter = 'g' ∧
    ((20 : Int) - (setFilter new 'g').helper).natAbs ≤ 20 ∧
    (runSeq (setFilter new 'g') (List.replicate 20 20)).2.helper = 20 ∧
    run (runSeq (setFilter new 'g') (List.replicate 20 20)).2 20
      = (20, (runSeq (setFilter new 'g') (List.replicate 20 20)).2) :=
  ⟨rfl, by decide, track_fast_converges (setFilter new 'g') 20 20 rfl (by decide)⟩

/-- C8: in every state reachable from a fresh engine by calls of `setFilter`,
`setOrder`, `begin` and `run` the counter lies between 0 and 10; and a call
`run(d)` in mode TrackSmooth (`h`) that increments the counter (the sample is
more than 8 away from the helper) beyond 10 returns with the counter at 0. -/
theorem counter_within_bounds (s : SignalFilter) (d : Int) (hr : Reachable s) :
    (0 ≤ s.counter ∧ s.counter ≤ 10) ∧
    (s.filter = 'h' → (d > s.helper + 8 ∨ d < s.helper - 8) → s.counter + 1 > 10 →
      (run s d).2.counter = 0) := by
  constructor
  · induction hr with
    | fresh => decide
    | afterSetFilter s f _ ih => exact ih
    | afterSetOrder s o _ ih => exact ih
    | afterBegin s _ ih => exact ih
    | afterRun s x _ ih => exact run_counter s x ih.1 ih.2
  · intro hf hgap hc
    simp only [run, hf, growSmooth]
    simp only [Char.reduceEq, if_false, if_true]
    split_ifs <;> first | rfl | omega

/-- Witness of C8: a fresh engine in mode `h` after ten calls `run(10000)` has
the counter at 10, and the eleventh call resets it. -/
theorem counter_within_bounds_witness :
    Reachable (runSeq (setFilter new 'h') (List.replicate 10 10000)).2 ∧
    (runSeq (setFilter new 'h') (List.replicate 10 10000)).2.counter = 10 ∧
    (0 ≤ (runSeq (setFilter new 'h') (List.replicate 10 10000)).2.counter ∧
      (runSeq (setFilter new 'h') (List.replicate 10 10000)).2.counter ≤ 10) ∧
    (run (runSeq (setFilter new 'h') (List.replicate 10 10000)).2 10000).2.counter = 0 :=
  ⟨Reachable.runSeq _ _ (Reachable.afterSetFilter _ _ Reachable.fresh), by decide,
    (counter_within_bounds _ 10000
      (Reachable.runSeq _ _ (Reachable.afterSetFilter _ _ Reachable.fresh))).1,
    (counter_within_bounds _ 10000
      (Reachable.runSeq _ _ (Reachable.afterSetFilter _ _ Reachable.fresh))).2
      (by decide) (by decide) (by decide)⟩

/-! ## Configuration -/

/-- C9 (counterexample): the claim that `run` on an unconfigured engine fails
and never returns a silent 0 does not hold of the code.  On a fresh engine the
call `run(7)` returns the value 0 and leaves the state as constructed; the
function has no other way to end. -/
theorem unconfigured_run_seven_returns_zero :
    run new 7 = (0, new) ∧ ¬ (∀ x : Int, (run new x).1 ≠ 0) := by
  refine ⟨by decide, fun h => h 7 (by decide)⟩

/-- C9 (amended): on a fresh engine whose mode was never set, `run(x)` returns
0 for every sample `x` and leaves the whole state unchanged. -/
theorem unconfigured_run_returns_zero (x : Int) : run new x = (0, new) := by
  simp [run, new]

/-- C10: `setFilter` changes the mode and nothing else, `setOrder` changes the
order and nothing else, `begin` sets the mode to `c` (Chebyshev) and the order
to 1 and nothing else; in particular none of them changes the window, the
helper or the counter, and each of them applied twice with the same argument
gives the state it gives applied once. -/
theorem configuration_frame (s : SignalFilter) (f : Char) (o : Int) :
    ((setFilter s f).filter = f ∧ (setFilter s f).order = s.order ∧
      (setFilter s f).v0 = s.v0 ∧ (setFilter s f).v1 = s.v1 ∧ (setFilter s f).v2 = s.v2 ∧
      (setFilter s f).helper = s.helper ∧ (setFilter s f).counter = s.counter ∧
      (setFilter s f).average = s.average ∧ (setFilter s f).median = s.median) ∧
    ((setOrder s o).order = o ∧ (setOrder s o).filter = s.filter ∧
      (setOrder s o).v0 = s.v0 ∧ (setOrder s o).v1 = s.v1 ∧ (setOrder s o).v2 = s.v2 ∧
      (setOrder s o).helper = s.helper ∧ (setOrder s o).counter = s.counter ∧
      (setOrder s o).average = s.average ∧ (setOrder s o).median = s.median) ∧
    ((begin s).filter = 'c' ∧ (begin s).order = 1 ∧
      (begin s).v0 = s.v0 ∧ (begin s).v1 = s.v1 ∧ (begin s).v2 = s.v2 ∧
      (begin s).helper = s.helper ∧ (begin s).counter = s.counter ∧
      (begin s).average = s.average ∧ (begin s).median = s.median) ∧
    (setFilter (setFilter s f) f = setFilter s f ∧
      setOrder (setOrder s o) o = setOrder s o ∧
      begin (begin s) = begin s) := by
  refine ⟨?_, ?_, ?_, ?_⟩ <;> simp [setFilter, setOrder, begin]

/-! ## Determinism, ties and the cycle of the smooth tracker -/

/-- C11: two engines in the same mode Chebyshev (`c`) or Bessel (`b`), with
the same order 1 or 2 and the same window, return the same sequence of values
on the same sequence of samples; nothing is assumed about their helper,
counter, average and median fields. -/
theorem lowpass_deterministic (s t : SignalFilter) (xs : List Int)
    (hf : s.filter = 'c' ∨ s.filter = 'b') (hft : t.filter = s.filter)
    (ho1 : s.order = 1 ∨ s.order = 2) (ho : t.order = s.order)
    (h0 : t.v0 = s.v0) (h1 : t.v1 = s.v1) (h2 : t.v2 = s.v2) :
    (runSeq t xs).1 = (runSeq s xs).1 := by
  induction xs generalizing s t with
  | nil => rfl
  | cons x xs ih =>
    obtain ⟨e, ef, eo, e0, e1, e2⟩ := run_lowpass_agree s t x hf hft ho h0 h1 h2
    simp only [runSeq, e]
    congr 1
    exact ih (run s x).2 (run t x).2 (by rw [run_filter]; exact hf) ef
      (by rw [run_order]; exact ho1) eo e0 e1 e2

/-- Witness of C11: two engines after `begin()` whose helper and counter
differ, fed 0, 100, 100. -/
theorem lowpass_deterministic_witness :
    ((begin new).filter = 'c' ∨ (begin new).filter = 'b') ∧
    ((begin new).order = 1 ∨ (begin new).order = 2) ∧
    (runSeq { begin new with helper := 7, counter := 3 } [0, 100, 100]).1
      = (runSeq (begin new) [0, 100, 100]).1 :=
  ⟨Or.inl rfl, Or.inl rfl,
    lowpass_deterministic (begin new) { begin new with helper := 7, counter := 3 }
      [0, 100, 100] (Or.inl rfl) rfl (Or.inl rfl) rfl rfl rfl rfl⟩

/-- C12: in mode MedianReadable (`n`) the call `run(x)` shifts the window to
`(v1, v2, x)`; it returns the median of these three values when they are
pairwise distinct and 0 when two of them are equal. -/
theorem run_median_readable (s : SignalFilter) (x : Int) :
    (run (setFilter s 'n') x).2.v0 = s.v1 ∧
    (run (setFilter s 'n') x).2.v1 = s.v2 ∧
    (run (setFilter s 'n') x).2.v2 = x ∧
    (run (setFilter s 'n') x).1
      = if s.v1 ≠ s.v2 ∧ s.v1 ≠ x ∧ s.v2 ≠ x then statMedian s.v1 s.v2 x else 0 := by
  simp only [run, setFilter, Char.reduceEq, if_true, if_false, medianRange_eq]
  split_ifs <;> simp

set_option maxRecDepth 100000 in
/-- C13: a fresh engine in mode TrackSmooth (`h`) fed the constant sample 41
is back in its initial state (helper 0, counter 0) after 22 calls and in no
call before, so the state after `n + 22` calls is the state after `n` calls;
after any number of calls the helper differs from 41 by more than 8. -/
theorem smooth_tracker_cycles (n : Nat) :
    (runSeq (setFilter new 'h') (List.replicate 22 41)).2 = setFilter new 'h' ∧
    (∀ k : Fin 22, 0 < k.val →
      (runSeq (setFilter new 'h') (List.replicate k.val 41)).2 ≠ setFilter new 'h') ∧
    (runSeq (setFilter new 'h') (List.replicate (n + 22) 41)).2
      = (runSeq (setFilter new 'h') (List.replicate n 41)).2 ∧
    (runSeq (setFilter new 'h') (List.replicate n 41)).2.helper ≠ 41 ∧
    8 < ((runSeq (setFilter new 'h') (List.replicate n 41)).2.helper - 41).natAbs := by
  have hper : (runSeq (setFilter new 'h') (List.replicate 22 41)).2 = setFilter new 'h' := by
    decide
  have hstep : ∀ m : Nat, (runSeq (setFilter new 'h') (List.replicate (m + 22) 41)).2
      = (runSeq (setFilter new 'h') (List.replicate m 41)).2 := by
    intro m
    rw [Nat.add_comm, List.replicate_add, runSeq_append_snd, hper]
  have htab : ∀ k : Fin 22,
      8 < ((runSeq (setFilter new 'h') (List.replicate k.val 41)).2.helper - 41).natAbs := by
    decide
  have hall : ∀ m : Nat,
      8 < ((runSeq (setFilter new 'h') (List.replicate m 41)).2.helper - 41).natAbs := by
    intro m
    induction m using Nat.strong_induction_on with
    | _ m ih =>
      by_cases hm : m < 22
      · exact htab ⟨m, hm⟩
      · have hm2 : m = (m - 22) + 22 := by omega
        rw [hm2, hstep]
        exact ih (m - 22) (by omega)
  refine ⟨hper, by decide, hstep n, ?_, hall n⟩
  have := hall n
  omega

/-! ## Width of the fixed-point intermediates -/

/-- Range of the intermediates: for 16-bit signed sample and window values
each product and sum of the four accumulators lies within the signed 64-bit
range; within the signed 32-bit range of the `long` of the Arduino targets
they lie when the sample and the window values are between -580 and 580, and
there the 32-bit evaluation gives the exact value. -/
theorem lowpass_intermediates_fit (data v0 v1 : Int)
    (hd : -32768 ≤ data ∧ data ≤ 32767) (h0 : -32768 ≤ v0 ∧ v0 ≤ 32767)
    (h1 : -32768 ≤ v1 ∧ v1 ≤ 32767) :
    ((∀ y ∈ chebyshev1Steps data v0 ++ chebyshev2Steps data v0 v1 ++ bessel1Steps data v0
        ++ bessel2Steps data v0 v1, -2 ^ 63 ≤ y ∧ y < 2 ^ 63) ∧
      chebyshev1TmpW 64 data v0 = chebyshev1Tmp data v0 ∧
      chebyshev2TmpW 64 data v0 v1 = chebyshev2Tmp data v0 v1 ∧
      bessel1TmpW 64 data v0 = bessel1Tmp data v0 ∧
      bessel2TmpW 64 data v0 v1 = bessel2Tmp data v0 v1) ∧
    ((-580 ≤ data ∧ data ≤ 580) → (-580 ≤ v0 ∧ v0 ≤ 580) → (-580 ≤ v1 ∧ v1 ≤ 580) →
      (∀ y ∈ chebyshev1Steps data v0 ++ chebyshev2Steps data v0 v1 ++ bessel1Steps data v0
        ++ bessel2Steps data v0 v1, -2 ^ 31 ≤ y ∧ y < 2 ^ 31) ∧
      chebyshev1TmpW 32 data v0 = chebyshev1Tmp data v0 ∧
      chebyshev2TmpW 32 data v0 v1 = chebyshev2Tmp data v0 v1 ∧
      bessel1TmpW 32 data v0 = bessel1Tmp data v0 ∧
      bessel2TmpW 32 data v0 v1 = bessel2Tmp data v0 v1) := by
  constructor
  · have h64 : ∀ y ∈ chebyshev1Steps data v0 ++ chebyshev2Steps data v0 v1
        ++ bessel1Steps data v0 ++ bessel2Steps data v0 v1, -2 ^ 63 ≤ y ∧ y < 2 ^ 63 := by
      simp only [chebyshev1Steps, chebyshev2Steps, bessel1Steps, bessel2Steps,
        chebyshev1Tmp, chebyshev2Tmp, bessel1Tmp, bessel2Tmp, shiftRight_eq_div,
        List.forall_mem_append, List.forall_mem_cons, List.cons_append, List.nil_append]
      norm_num
      omega
    refine ⟨h64, ?_, ?_, ?_, ?_⟩
    · exact chebyshev1TmpW_eq 64 (by decide) data v0 (fun y hy => h64 y (by simp [hy]))
    · exact chebyshev2TmpW_eq 64 (by decide) data v0 v1 (fun y hy => h64 y (by simp [hy]))
    · exact bessel1TmpW_eq 64 (by decide) data v0 (fun y hy => h64 y (by simp [hy]))
    · exact bessel2TmpW_eq 64 (by decide) data v0 v1 (fun y hy => h64 y (by simp [hy]))
  · intro gd g0 g1
    have h32 : ∀ y ∈ chebyshev1Steps data v0 ++ chebyshev2Steps data v0 v1
        ++ bessel1Steps data v0 ++ bessel2Steps data v0 v1, -2 ^ 31 ≤ y ∧ y < 2 ^ 31 := by
      simp only [chebyshev1Steps, chebyshev2Steps, bessel1Steps, bessel2Steps,
        chebyshev1Tmp, chebyshev2Tmp, bessel1Tmp, bessel2Tmp, shiftRight_eq_div,
        List.forall_mem_append, List.forall_mem_cons, List.cons_append, List.nil_append]
      norm_num
      omega
    refine ⟨h32, ?_, ?_, ?_, ?_⟩
    · exact chebyshev1TmpW_eq 32 (by decide) data v0 (fun y hy => h32 y (by simp [hy]))
    · exact chebyshev2TmpW_eq 32 (by decide) data v0 v1 (fun y hy => h32 y (by simp [hy]))
    · exact bessel1TmpW_eq 32 (by decide) data v0 (fun y hy => h32 y (by simp [hy]))
    · exact bessel2TmpW_eq 32 (by decide) data v0 v1 (fun y hy => h32 y (by simp [hy]))

/-! ## Window contents -/

/-- C15 (counterexample): after `begin()` (Chebyshev order 1) the call
`run(100)` on a fresh engine stores 39, not the sample 100, and after three
calls `run(100)` the window is 48, 50, 0; in Chebyshev order 2 three calls
`run(100)` leave the window 8, 17, 24. -/
theorem lowpass_window_is_not_raw :
    (run (begin new) 100).2.v1 = 39 ∧ (run (begin new) 100).2.v2 = 0 ∧
    ((runSeq (begin new) [100, 100, 100]).2.v0 = 48 ∧
      (runSeq (begin new) [100, 100, 100]).2.v1 = 50 ∧
      (runSeq (begin new) [100, 100, 100]).2.v2 = 0) ∧
    ((runSeq (setOrder (setFilter new 'c') 2) [100, 100, 100]).2.v0 = 8 ∧
      (runSeq (setOrder (setFilter new 'c') 2) [100, 100, 100]).2.v1 = 17 ∧
      (runSeq (setOrder (setFilter new 'c') 2) [100, 100, 100]).2.v2 = 24) := by
  decide

/-- C15 (amended): under the three median strategies each call `run(x)`
shifts the window left, dropping the oldest value, and stores the raw sample
in the newest slot, so after three or more calls the window holds the three
most recent samples in order.  Under Chebyshev and Bessel the window is
shifted the same way over the slots in use (`v0, v1` at order 1, all three at
order 2), and the newest slot in use receives the `short` cast of the
accumulator, not the raw sample. -/
theorem window_contents (s : SignalFilter) (xs : List Int) (a b c x : Int)
    (hf : s.filter = 'm' ∨ s.filter = 'n' ∨ s.filter = '0') :
    ((run s x).2.v0 = s.v1 ∧ (run s x).2.v1 = s.v2 ∧ (run s x).2.v2 = x) ∧
    ((runSeq s (xs ++ [a, b, c])).2.v0 = a ∧ (runSeq s (xs ++ [a, b, c])).2.v1 = b ∧
      (runSeq s (xs ++ [a, b, c])).2.v2 = c) ∧
    ((run (setOrder (setFilter s 'c') 1) x).2.v0 = s.v1 ∧
      (run (setOrder (setFilter s 'c') 1) x).2.v1 = toShort (chebyshev1Tmp x s.v1) ∧
      (run (setOrder (setFilter s 'c') 1) x).2.v2 = s.v2) ∧
    ((run (setOrder (setFilter s 'c') 2) x).2.v0 = s.v1 ∧
      (run (setOrder (setFilter s 'c') 2) x).2.v1 = s.v2 ∧
      (run (setOrder (setFilter s 'c') 2) x).2.v2 = toShort (chebyshev2Tmp x s.v1 s.v2)) ∧
    ((run (setOrder (setFilter s 'b') 1) x).2.v0 = s.v1 ∧
      (run (setOrder (setFilter s 'b') 1) x).2.v1 = toShort (bessel1Tmp x s.v1) ∧
      (run (setOrder (setFilter s 'b') 1) x).2.v2 = s.v2) ∧
    ((run (setOrder (setFilter s 'b') 2) x).2.v0 = s.v1 ∧
      (run (setOrder (setFilter s 'b') 2) x).2.v1 = s.v2 ∧
      (run (setOrder (setFilter s 'b') 2) x).2.v2 = toShort (bessel2Tmp x s.v1 s.v2)) := by
  refine ⟨run_median_window s x hf, ?_, ?_, ?_, ?_, ?_⟩
  · have hf0 : (runSeq s xs).2.filter = 'm' ∨ (runSeq s xs).2.filter = 'n'
        ∨ (runSeq s xs).2.filter = '0' := by rw [runSeq_filter]; exact hf
    rw [runSeq_append_snd]
    generalize (runSeq s xs).2 = t at hf0
    have hf1 : (run t a).2.filter = 'm' ∨ (run t a).2.filter = 'n'
        ∨ (run t a).2.filter = '0' := by rw [run_filter]; exact hf0
    have hf2 : (run (run t a).2 b).2.filter = 'm' ∨ (run (run t a).2 b).2.filter = 'n'
        ∨ (run (run t a).2 b).2.filter = '0' := by rw [run_filter]; exact hf1
    obtain ⟨-, -, ea⟩ := run_median_window t a hf0
    obtain ⟨-, eb1, eb2⟩ := run_median_window (run t a).2 b hf1
    obtain ⟨ec0, ec1, ec2⟩ := run_median_window (run (run t a).2 b).2 c hf2
    simp only [runSeq]
    rw [ec0, ec1, ec2, eb1, eb2, ea]
    exact ⟨rfl, rfl, rfl⟩
  all_goals simp [run, setFilter, setOrder]

/-- Witness of C15: a fresh engine in mode `n` fed 4, 5, 1, 9. -/
theorem window_contents_witness :
    ((setFilter new 'n').filter = 'm' ∨ (setFilter new 'n').filter = 'n'
      ∨ (setFilter new 'n').filter = '0') ∧
    ((runSeq (setFilter new 'n') ([4] ++ [5, 1, 9])).2.v0 = 5 ∧
      (runSeq (setFilter new 'n') ([4] ++ [5, 1, 9])).2.v1 = 1 ∧
      (runSeq (setFilter new 'n') ([4] ++ [5, 1, 9])).2.v2 = 9) :=
  ⟨Or.inr (Or.inl rfl),
    (window_contents (setFilter new 'n') [4] 5 1 9 0 (Or.inr (Or.inl rfl))).2.1⟩

/-! ## Steps of the trackers -/

/-- C16: in mode TrackFast (`g`) one call `run(d)` returns the new helper,
which lies between the old helper and `d` inclusive; when `d` differs from the
old helper the new one is strictly closer to `d`, and when `d` equals it the
state is unchanged. -/
theorem track_fast_step (s : SignalFilter) (d : Int) (hf : s.filter = 'g') :
    (run s d).1 = (run s d).2.helper ∧
    (min s.helper d ≤ (run s d).2.helper ∧ (run s d).2.helper ≤ max s.helper d) ∧
    (d ≠ s.helper → (d - (run s d).2.helper).natAbs < (d - s.helper).natAbs) ∧
    (d = s.helper → run s d = (d, s)) := by
  rw [run_fast s d hf]
  refine ⟨rfl, ?_, ?_, ?_⟩
  · simp only [growFast]
    split_ifs <;> omega
  · intro hne
    have := growFast_gap s.helper d
    simp only
    omega
  · intro he
    have hd : growFast s.helper d = d := by
      rw [he]; simp [growFast]
    rw [hd]
    cases s
    simp only at he
    rw [he]

/-- Witness of C16: a fresh engine in mode `g` fed 700, and fed 0. -/
theorem track_fast_step_witness :
    (setFilter new 'g').filter = 'g' ∧ (700 : Int) ≠ (setFilter new 'g').helper ∧
    ((700 : Int) - (run (setFilter new 'g') 700).2.helper).natAbs
      < ((700 : Int) - (setFilter new 'g').helper).natAbs ∧
    run (setFilter new 'g') 0 = (0, setFilter new 'g') :=
  ⟨rfl, by decide, (track_fast_step (setFilter new 'g') 700 rfl).2.2.1 (by decide),
    (track_fast_step (setFilter new 'g') 0 rfl).2.2.2 rfl⟩

/-- TrackFast in exact arithmetic: one call `run(d)` moves the helper toward
`d` by `cascadeMove` of the gap, that is by 1 plus those of the jumps 512,
128, 32, 8 that the remaining gap strictly exceeds; the move is 1 when the
gap is between 1 and 8, it is 681 when the gap exceeds 680, and it never
exceeds 681.  The code computes this as long as the helper stays 681 away
from the ends of the `int` range (`runW_eq_run_fast`). -/
theorem track_fast_move (s : SignalFilter) (d : Int) (hf : s.filter = 'g') :
    (d > s.helper → (run s d).2.helper = s.helper + cascadeMove (d - s.helper)) ∧
    (d < s.helper → (run s d).2.helper = s.helper - cascadeMove (s.helper - d)) ∧
    (0 < (d - s.helper).natAbs → (d - s.helper).natAbs ≤ 8 →
      ((run s d).2.helper - s.helper).natAbs = 1) ∧
    (680 < (d - s.helper).natAbs → ((run s d).2.helper - s.helper).natAbs = 681) ∧
    ((run s d).2.helper - s.helper).natAbs ≤ 681 := by
  rw [run_fast s d hf]
  simp only
  refine ⟨fun h => growFast_up _ _ h, fun h => growFast_down _ _ h, ?_, ?_, ?_⟩
  · intro h1 h2
    rcases lt_trichotomy d s.helper with h | h | h
    · have := cascadeMove_bounds (s.helper - d)
      rw [growFast_down _ _ h]; omega
    · omega
    · have := cascadeMove_bounds (d - s.helper)
      rw [growFast_up _ _ h]; omega
  · intro h1
    rcases lt_trichotomy d s.helper with h | h | h
    · have := cascadeMove_bounds (s.helper - d)
      rw [growFast_down _ _ h]; omega
    · omega
    · have := cascadeMove_bounds (d - s.helper)
      rw [growFast_up _ _ h]; omega
  · rcases lt_trichotomy d s.helper with h | h | h
    · have := cascadeMove_bounds (s.helper - d)
      rw [growFast_down _ _ h]; omega
    · rw [h]; simp [growFast]
    · have := cascadeMove_bounds (d - s.helper)
      rw [growFast_up _ _ h]; omega

/-- TrackSmooth in exact arithmetic: one call `run(d)` returns the new
helper.  When `d` is more than 8 away from the helper `h`, the counter `c` is
first incremented and the helper moves toward `d` by `8*(c+1) + 1`; when `d`
is between 1 and 8 away the helper moves toward `d` by 1 and the counter is
not incremented; when `d = h` neither changes; in all cases the counter is
then set to 0 if it exceeds 10.  In a reachable state the helper moves by at
most 89.  The code computes this as long as the helper stays 89 away from the
ends of the `int` range (`runW_eq_run_smooth`). -/
theorem track_smooth_step (s : SignalFilter) (d : Int) (hf : s.filter = 'h') :
    (run s d).1 = (run s d).2.helper ∧
    (d > s.helper + 8 → (run s d).2.helper = s.helper + (8 * (s.counter + 1) + 1) ∧
      (run s d).2.counter = if s.counter + 1 > 10 then 0 else s.counter + 1) ∧
    (d < s.helper - 8 → (run s d).2.helper = s.helper - (8 * (s.counter + 1) + 1) ∧
      (run s d).2.counter = if s.counter + 1 > 10 then 0 else s.counter + 1) ∧
    (s.helper < d → d ≤ s.helper + 8 → (run s d).2.helper = s.helper + 1 ∧
      (run s d).2.counter = if s.counter > 10 then 0 else s.counter) ∧
    (d < s.helper → s.helper - 8 ≤ d → (run s d).2.helper = s.helper - 1 ∧
      (run s d).2.counter = if s.counter > 10 then 0 else s.counter) ∧
    (d = s.helper → (run s d).2.helper = s.helper ∧
      (run s d).2.counter = if s.counter > 10 then 0 else s.counter) ∧
    (Reachable s → ((run s d).2.helper - s.helper).natAbs ≤ 89) := by
  rw [run_smooth s d hf]
  simp only [growSmooth]
  refine ⟨trivial, ?_, ?_, ?_, ?_, ?_, ?_⟩
  · intro h; split_ifs <;> (constructor <;> omega)
  · intro h; split_ifs <;> (constructor <;> omega)
  · intro h1 h2; split_ifs <;> (constructor <;> omega)
  · intro h1 h2; split_ifs <;> (constructor <;> omega)
  · intro h; split_ifs <;> (constructor <;> omega)
  · intro hr
    have := Reachable.counter_bounds s hr
    split_ifs <;> simp only <;> omega

/-! ## Misconfiguration and frame of `run` -/

/-- C19: `setOrder` stores any integer, and in mode Chebyshev (`c`) or Bessel
(`b`) with an order other than 1 and 2 the call `run(x)` returns 0 and leaves
the whole state (window, helper, counter, mode, order) as it is. -/
theorem run_unsupported_order (s : SignalFilter) (f : Char) (o x : Int)
    (hf : f = 'c' ∨ f = 'b') (h1 : o ≠ 1) (h2 : o ≠ 2) :
    (setOrder s o).order = o ∧
    run (setOrder (setFilter s f) o) x = (0, setOrder (setFilter s f) o) := by
  rcases hf with hf | hf <;> subst hf <;> simp [run, setFilter, setOrder, h1, h2]

/-- Witness of C19: order 3 in mode `b` on a fresh engine, sample 100. -/
theorem run_unsupported_order_witness :
    ('b' = 'c' ∨ 'b' = 'b') ∧ (3 : Int) ≠ 1 ∧ (3 : Int) ≠ 2 ∧
    (setOrder new 3).order = 3 ∧
    run (setOrder (setFilter new 'b') 3) 100 = (0, setOrder (setFilter new 'b') 3) :=
  ⟨Or.inr rfl, by decide, by decide,
    run_unsupported_order new 'b' 3 100 (Or.inr rfl) (by decide) (by decide)⟩

/-- C20: a call of `run` changes neither the mode nor the order; in the modes
Chebyshev, Bessel and the three medians it leaves helper and counter as they
are; in the modes TrackFast and TrackSmooth it leaves the window as it is; and
outside mode TrackSmooth the counter is left as it is. -/
theorem run_frame (s : SignalFilter) (x : Int) :
    (run s x).2.filter = s.filter ∧ (run s x).2.order = s.order ∧
    ((s.filter = 'c' ∨ s.filter = 'b' ∨ s.filter = 'm' ∨ s.filter = 'n' ∨ s.filter = '0') →
      (run s x).2.helper = s.helper ∧ (run s x).2.counter = s.counter) ∧
    ((s.filter = 'g' ∨ s.filter = 'h') →
      (run s x).2.v0 = s.v0 ∧ (run s x).2.v1 = s.v1 ∧ (run s x).2.v2 = s.v2) ∧
    (s.filter ≠ 'h' → (run s x).2.counter = s.counter) := by
  refine ⟨run_filter s x, run_order s x, ?_, ?_, ?_⟩
  · intro hf
    rcases hf with hf | hf | hf | hf | hf <;>
      simp only [run, hf, Char.reduceEq, if_true, if_false] <;>
      (try split_ifs) <;> (try split) <;> first | exact ⟨rfl, rfl⟩ | trivial
  · intro hf
    rcases hf with hf | hf <;> simp [run, hf]
  · intro hf
    unfold run
    split_ifs <;> first | rfl | (split <;> rfl)

/-- Witness of C20: a fresh engine in mode `m`, in mode `h` and in mode `g`,
fed 100. -/
theorem run_frame_witness :
    ((run (setFilter new 'm') 100).2.helper = 0 ∧ (run (setFilter new 'm') 100).2.counter = 0) ∧
    ((run (setFilter new 'h') 100).2.v0 = 0 ∧ (run (setFilter new 'h') 100).2.v1 = 0 ∧
      (run (setFilter new 'h') 100).2.v2 = 0) ∧
    (run (setFilter new 'g') 100).2.counter = 0 :=
  ⟨(run_frame (setFilter new 'm') 100).2.2.1 (Or.inr (Or.inr (Or.inl rfl))),
    (run_frame (setFilter new 'h') 100).2.2.2.1 (Or.inr rfl),
    (run_frame (setFilter new 'g') 100).2.2.2.2 (by decide)⟩

/-! ## Overflow of the machine integers -/

/-- C14: the code at the failing input.  The sample 657 is a 16-bit value; the
first product of the Chebyshev order 1 formula, `657 * 3269048 = 2147764536`,
is above the largest signed 32-bit value.  On a target with a 32-bit `long`
(`int` of 16 or of 32 bits) a fresh engine after `begin()` stores and returns
-256 on `run(657)`; in exact arithmetic the accumulator is 256. -/
theorem chebyshev_order1_overflows_at_657 :
    (-32768 ≤ (657 : Int) ∧ (657 : Int) ≤ 32767) ∧
    (657 : Int) * 3269048 ∈ chebyshev1Steps 657 0 ∧
    ¬ ((657 : Int) * 3269048 < 2 ^ 31) ∧
    runW 16 32 (begin new) 657 = (-256, { begin new with v1 := -256 }) ∧
    runW 32 32 (begin new) 657 = (-256, { begin new with v1 := -256 }) ∧
    chebyshev1Tmp 657 0 = 256 ∧
    run (begin new) 657 = (256, { begin new with v1 := 256 }) := by
  decide

/-- C5: the code at the failing input.  A fresh engine is fed -3970 and 3414
in mode `m`, then set to Chebyshev order 2 and fed 3239.  The three products
of the formula lie within the signed 32-bit range, their sum 3354978856 does
not; on a target with a 32-bit `long` the call stores -1793 and returns 1065,
where the formula of the claim gives 6399 and the return value 9257. -/
theorem chebyshev_order2_sum_overflows :
    (runSeqW 16 32 (setFilter new 'm') [-3970, 3414]).2
      = { setFilter new 'm' with v1 := -3970, v2 := 3414, median := 0 } ∧
    ((-2 ^ 31 ≤ (3239 : Int) * 662828 ∧ (3239 : Int) * 662828 < 2 ^ 31) ∧
      (-2 ^ 31 ≤ (-3970 : Int) * (-540791) ∧ (-3970 : Int) * (-540791) < 2 ^ 31) ∧
      (-2 ^ 31 ≤ (3414 : Int) * 628977 ∧ (3414 : Int) * 628977 < 2 ^ 31)) ∧
    ¬ ((((3239 : Int) * 662828) >>> (4 : Nat)) + (((-3970 : Int) * (-540791)) >>> (1 : Nat))
        + (3414 : Int) * 628977 < 2 ^ 31) ∧
    runW 16 32 (setOrder (setFilter
        (runSeqW 16 32 (setFilter new 'm') [-3970, 3414]).2 'c') 2) 3239
      = (1065, { setOrder (setFilter new 'c') 2 with
          v0 := -3970, v1 := 3414, v2 := -1793, median := 0 }) ∧
    runW 32 32 (setOrder (setFilter
        (runSeqW 32 32 (setFilter new 'm') [-3970, 3414]).2 'c') 2) 3239
      = (1065, { setOrder (setFilter new 'c') 2 with
          v0 := -3970, v1 := 3414, v2 := -1793, median := 0 }) ∧
    toShort (((((3239 : Int) * 662828) >>> (4 : Nat))
        + (((-3970 : Int) * (-540791)) >>> (1 : Nat)) + (3414 : Int) * 628977
        + 262144) >>> (19 : Nat)) = 6399 ∧
    toShort ((-3970 : Int) + 6399 + 2 * 3414) = 9257 := by
  decide

/-- C6: the code at the failing inputs.  On a target with a 32-bit `long` a
fresh engine in mode Bessel fed 32767 stores -156 at order 1 and -105 at
order 2, where the formulas of the claim give 8036 and 2967; the smallest
positive first samples at which the stored value departs from the formula are
1044 at order 1 and 2828 at order 2 (-256 stored, 256 by the formula). -/
theorem bessel_products_overflow :
    ((runW 16 32 (setOrder (setFilter new 'b') 1) 32767).2.v1 = -156 ∧
      toShort (((((32767 : Int) * 2057199) >>> (3 : Nat)) + (((0 : Int) * 1068552) >>> (1 : Nat))
        + 524288) >>> (20 : Nat)) = 8036) ∧
    ((runW 16 32 (setOrder (setFilter new 'b') 2) 32767).2.v2 = -105 ∧
      toShort (((((32767 : Int) * 759505) >>> (4 : Nat))
        + (((0 : Int) * (-1011418)) >>> (3 : Nat)) + (((0 : Int) * 921678) >>> (1 : Nat))
        + 262144) >>> (19 : Nat)) = 2967) ∧
    ((runW 16 32 (setOrder (setFilter new 'b') 1) 1044).2.v1 = -256 ∧
      (run (setOrder (setFilter new 'b') 1) 1044).2.v1 = 256 ∧
      ¬ ((1044 : Int) * 2057199 < 2 ^ 31)) ∧
    ((runW 16 32 (setOrder (setFilter new 'b') 2) 2828).2.v2 = -256 ∧
      (run (setOrder (setFilter new 'b') 2) 2828).2.v2 = 256 ∧
      ¬ ((2828 : Int) * 759505 < 2 ^ 31)) ∧
    ((runW 32 32 (setOrder (setFilter new 'b') 1) 32767).2.v1 = -156 ∧
      (runW 32 32 (setOrder (setFilter new 'b') 2) 32767).2.v2 = -105) := by
  decide

set_option maxRecDepth 100000 in
/-- C17: the code at the failing input.  On a target with a 16-bit `int` a
fresh engine in mode TrackFast fed the constant 32767 has the helper at 32688
after 48 calls; at the 49th call `_helper+512` wraps to a negative value,
every jump is taken and the call returns -32167, where the move of the claim
(the jumps 32 and 8 and the final 1 for the gap 79) leads to 32729.  With a
32-bit `int`, helper 2147483600 and sample 2147483647 the call returns
-2147483015, where the claim leads to 2147483641. -/
theorem track_fast_overflows :
    (runSeqW 16 32 (setFilter new 'g') (List.replicate 48 32767)).2
      = { setFilter new 'g' with helper := 32688 } ∧
    runW 16 32 { setFilter new 'g' with helper := 32688 } 32767
      = (-32167, { setFilter new 'g' with helper := -32167 }) ∧
    (32688 : Int) + cascadeMove (32767 - 32688) = 32729 ∧
    runW 32 32 { setFilter new 'g' with helper := 2147483600 } 2147483647
      = (-2147483015, { setFilter new 'g' with helper := -2147483015 }) ∧
    (2147483600 : Int) + cascadeMove (2147483647 - 2147483600) = 2147483641 := by
  decide

set_option maxRecDepth 100000 in
/-- C18: the code at the failing input.  On a target with a 16-bit `int` a
fresh engine fed 32221 sixty times in mode TrackFast and then 32767 eleven
times in mode TrackSmooth has helper 32760 and counter 0, in 16-bit as in
exact arithmetic.  At the next call `run(32767)` the sample is 7 away
from the helper, so the claim has the helper move by 1 to 32761 with the
counter kept at 0; `_helper+8` wraps to -32768, the counter is incremented and
the call returns -32767 with the counter at 1.  With a 32-bit `int`, helper
2147483640, counter 0 and sample 2147483647 the call returns -2147483647. -/
theorem track_smooth_overflows :
    (runSeqW 16 32 (setFilter (runSeqW 16 32 (setFilter new 'g')
        (List.replicate 60 32221)).2 'h') (List.replicate 11 32767)).2
      = { setFilter new 'h' with helper := 32760 } ∧
    (runSeq (setFilter (runSeq (setFilter new 'g')
        (List.replicate 60 32221)).2 'h') (List.replicate 11 32767)).2
      = { setFilter new 'h' with helper := 32760 } ∧
    runW 16 32 { setFilter new 'h' with helper := 32760 } 32767
      = (-32767, { setFilter new 'h' with helper := -32767, counter := 1 }) ∧
    run { setFilter new 'h' with helper := 32760 } 32767
      = (32761, { setFilter new 'h' with helper := 32761 }) ∧
    runW 32 32 { setFilter new 'h' with helper := 2147483640 } 2147483647
      = (-2147483647, { setFilter new 'h' with helper := -2147483647, counter := 1 }) := by
  decide

end SignalFilter
